import Mathlib

/-!
Verification development for the pyyaml-include repository.

The definitions below are a shallow embedding of the include-resolution
code of the package variant under src/src/yaml_include: the dataclass
Data (data.py), the Constructor with its load, managed_autoload and
node-construction logic (constructor.py), the Representer
(representer.py) and the eager tree walk (funcs.py), together with the
pieces of the Python standard library the code leans on
(urllib.parse.urlsplit and urlunsplit, pathlib.PurePosixPath joining,
int coercion, truthiness, iteration).

Python values appearing in include parameters are modelled by the
inductive type Val; Python exceptions by PyErr; the fsspec backend by
records of functions, and every backend invocation performed by
Constructor.load is additionally recorded in a trace of BackendOp so
that dispatch claims can speak about which backend method was invoked.
-/

namespace YamlInc

/-- Python values that can occur as include-statement parameters and as
parsed YAML documents: None, bool, int, str, list and dict with string
keys (in insertion order). -/
inductive Val where
  | none
  | bool (b : Bool)
  | int (n : Int)
  | str (s : String)
  | list (xs : List Val)
  | map (kvs : List (String × Val))
deriving Repr

/-- Python exceptions that the embedded code can raise. -/
inductive PyErr where
  | fileNotFoundError (path : String)
  | typeError (msg : String)
  | valueError (msg : String)
  | keyError (key : String)
deriving Repr, DecidableEq

/-- Python truthiness of a value, as computed by the builtin bool
conversion: None and the empty or zero values are falsy, everything
else truthy. -/
def pyBool : Val → Bool
  | .none => false
  | .bool b => b
  | .int n => n ≠ 0
  | .str s => s ≠ ""
  | .list xs => !xs.isEmpty
  | .map kvs => !kvs.isEmpty

/-- Parse of a decimal integer literal the way the Python int builtin
parses a string: surrounding whitespace is stripped, an optional sign
is followed by one or more digits.  Underscore digit grouping and
non-decimal bases are not modelled; no claim depends on them. -/
def pyIntOfString (s : String) : Option Int :=
  let cs := (s.toList.dropWhile (· = ' ')).reverse.dropWhile (· = ' ') |>.reverse
  let (sign, digits) :=
    match cs with
    | '-' :: rest => ((-1 : Int), rest)
    | '+' :: rest => ((1 : Int), rest)
    | rest => ((1 : Int), rest)
  if digits ≠ [] ∧ digits.all Char.isDigit then
    some (sign * (digits.foldl (fun acc c => acc * 10 + (c.toNat - '0'.toNat)) (0 : Nat) : Nat))
  else
    Option.none

/-- Coercion of a Python value through the int builtin: ints pass
through, bools become 0 or 1, strings are parsed (ValueError on
failure), everything else is a TypeError. -/
def pyInt : Val → Except PyErr Int
  | .int n => .ok n
  | .bool b => .ok (if b then 1 else 0)
  | .str s =>
    match pyIntOfString s with
    | some n => .ok n
    | Option.none => .error (.valueError "invalid literal for int")
  | _ => .error (.typeError "int argument must be a string or a number")

/-- Lookup in a string-keyed association list, first occurrence wins,
mirroring dict.get of a dict whose keys are unique. -/
def mapGet (kvs : List (String × Val)) (k : String) : Option Val :=
  match kvs.find? (fun kv => kv.1 = k) with
  | some kv => some kv.2
  | Option.none => Option.none

/-- Membership test on the keys of a string-keyed association list. -/
def mapHasKey (kvs : List (String × Val)) (k : String) : Bool :=
  kvs.any (fun kv => kv.1 = k)

/-- Assigning into a Python dict: an existing key keeps its position
and gets the new value, a fresh key is appended at the end. -/
def dictInsert (kvs : List (String × Val)) (k : String) (v : Val) : List (String × Val) :=
  if mapHasKey kvs k then
    kvs.map (fun kv => if kv.1 = k then (k, v) else kv)
  else
    kvs ++ [(k, v)]

/-- Building a Python dict from a list of key-value pairs in order:
later occurrences of a key overwrite the earlier value in place, so
the result has unique keys in first-appearance order. -/
def dictOfPairs (kvs : List (String × Val)) : List (String × Val) :=
  kvs.foldl (fun acc kv => dictInsert acc kv.1 kv.2) []

/-- Identifier test modelling str.isidentifier for ASCII names: a
nonempty string whose first character is a letter or underscore and
whose remaining characters are letters, digits or underscores.
Non-ASCII identifier characters are not modelled; no claim uses them. -/
def isidentifier (s : String) : Bool :=
  match s.toList with
  | [] => false
  | c :: rest => (c.isAlpha || c = '_') && rest.all (fun d => d.isAlphanum || d = '_')

/-- Result of urllib.parse.urlsplit: the five components of a URL. -/
structure SplitResult where
  scheme : String
  netloc : String
  path : String
  query : String
  fragment : String
deriving Repr, DecidableEq

/-- Characters allowed after the first character of a URL scheme. -/
def schemeChar (c : Char) : Bool :=
  c.isAlpha || c.isDigit || c = '+' || c = '-' || c = '.'

/-- Index of the first character of cs satisfying p, or the length of
cs when none does. -/
def firstIdxOf (p : Char → Bool) (cs : List Char) : Nat :=
  match cs with
  | [] => 0
  | c :: rest => if p c then 0 else firstIdxOf p rest + 1

/-- Model of urllib.parse.urlsplit (CPython 3.11).  Leading C0 control
characters and spaces are stripped and every tab, carriage-return and
newline character is removed first; a leading run of scheme
characters that starts with an ASCII letter and is followed by a colon
is split off and lowercased as the scheme; a path starting with two
slashes yields a netloc running to the next slash, question mark or
hash; the fragment is split at the first hash and the query at the
first question mark of what remains.  The ValueError that CPython
raises for unbalanced brackets inside the netloc is not modelled; no
claim involves bracketed hosts. -/
def urlsplit (url0 : String) : SplitResult :=
  let cs0 := (url0.toList.dropWhile (fun c => c.toNat ≤ 32)).filter
    (fun c => c ≠ '\t' && c ≠ '\r' && c ≠ '\n')
  let i := firstIdxOf (· = ':') cs0
  let (scheme, cs1) :=
    if i < cs0.length then
      if 0 < i ∧ (cs0.headI.isAlpha ∧ cs0.headI.toNat < 128) ∧ (cs0.take i).all schemeChar then
        (String.mk ((cs0.take i).map Char.toLower), cs0.drop (i + 1))
      else ("", cs0)
    else ("", cs0)
  let (netloc, cs2) :=
    match cs1 with
    | '/' :: '/' :: rest =>
      let d := firstIdxOf (fun c => c = '/' || c = '?' || c = '#') rest
      (String.mk (rest.take d), rest.drop d)
    | _ => ("", cs1)
  let (cs3, fragment) :=
    let d := firstIdxOf (· = '#') cs2
    if d < cs2.length then (cs2.take d, String.mk (cs2.drop (d + 1))) else (cs2, "")
  let (path, query) :=
    let d := firstIdxOf (· = '?') cs3
    if d < cs3.length then (String.mk (cs3.take d), String.mk (cs3.drop (d + 1))) else (String.mk cs3, "")
  ⟨scheme, netloc, path, query, fragment⟩

/-- The uses_netloc scheme list of urllib.parse, without its empty
entry (urlunsplit tests the scheme for nonemptiness first). -/
def uses_netloc : List String :=
  ["ftp", "http", "gopher", "nntp", "telnet", "imap", "wais", "file", "mms",
   "https", "shttp", "snews", "prospero", "rtsp", "rtsps", "rtspu", "rsync",
   "svn", "svn+ssh", "sftp", "nfs", "git", "git+ssh", "ws", "wss"]

/-- Model of urllib.parse.urlunsplit (CPython 3.11): the path gains a
leading slash and a double-slash netloc prefix when a netloc is
present, or when the scheme is a known netloc-using scheme and the
path does not already start with two slashes; scheme, query and
fragment are glued back with their separators when nonempty. -/
def urlunsplit (sr : SplitResult) : String :=
  let url := sr.path
  let url :=
    if sr.netloc ≠ "" ∨ (sr.scheme ≠ "" ∧ sr.scheme ∈ uses_netloc ∧ url.toList.take 2 ≠ ['/', '/']) then
      let url := if url.toList.head? ≠ some '/' ∧ url ≠ "" then "/" ++ url else url
      "//" ++ sr.netloc ++ url
    else url
  let url := if sr.scheme ≠ "" then sr.scheme ++ ":" ++ url else url
  let url := if sr.query ≠ "" then url ++ "?" ++ sr.query else url
  if sr.fragment ≠ "" then url ++ "#" ++ sr.fragment else url

/-- A pathlib.PurePosixPath: the root is empty for relative paths, a
single slash for absolute ones and a double slash for the special
exactly-two-leading-slashes form; parts holds the non-root components
with empty and single-dot components dropped. -/
structure PurePosixPath where
  root : String
  parts : List String
deriving Repr, DecidableEq

/-- Splitting a character list at every slash, the list analogue of
splitting a string on the slash separator. -/
def splitOnSlash : List Char → List (List Char)
  | [] => [[]]
  | c :: rest =>
    match splitOnSlash rest with
    | [] => [[c]]
    | h :: t => if c = '/' then [] :: h :: t else (c :: h) :: t

/-- Parsing a string into a PurePosixPath: one or at least three
leading slashes give root slash, exactly two give the double-slash
root, none give an empty root; the remainder splits on slashes with
empty and dot components removed. -/
def PurePosixPath.parse (s : String) : PurePosixPath :=
  let cs := s.toList
  let k := (cs.takeWhile (· = '/')).length
  let root := if k = 0 then "" else if k = 2 then "//" else "/"
  let comps := (splitOnSlash (cs.drop k)).map String.mk |>.filter (fun t => t ≠ "" ∧ t ≠ ".")
  ⟨root, comps⟩

/-- String form of a PurePosixPath, which on a POSIX flavour is also
its as_posix form: the root followed by the slash-joined parts, with
the empty relative path rendered as a single dot. -/
def PurePosixPath.as_posix (p : PurePosixPath) : String :=
  if p.root = "" ∧ p.parts = [] then "."
  else p.root ++ String.intercalate "/" p.parts

/-- Model of PurePosixPath.joinpath with a string argument: an
absolute argument replaces the whole path, a relative one appends its
parts. -/
def PurePosixPath.joinpath (p : PurePosixPath) (s : String) : PurePosixPath :=
  let q := PurePosixPath.parse s
  if q.root ≠ "" then q else ⟨p.root, p.parts ++ q.parts⟩

/-- The four glob wildcard characters recognised by the constructor. -/
def isWildcardChar (c : Char) : Bool :=
  c = '*' || c = '?' || c = '[' || c = ']'

/-- Matched-portion test for WILDCARDS_PATTERN: a candidate portion of
the subject matches the regex body when it contains no newline (dot
does not match newline) and contains at least one wildcard character
(the one-or-more character class). -/
def wildcardsCore (s : String) : Bool :=
  s.toList.all (fun c => c ≠ '\n') && s.toList.any isWildcardChar

/-- Model of WILDCARDS_PATTERN.match, where the pattern is anchored
dot-star, a one-or-more class of the four wildcard characters, then
dot-star and a dollar anchor, compiled without DOTALL or MULTILINE.
Since dot never matches a newline and the dollar anchor matches either
at the end of the subject or just before a trailing newline, a match
exists exactly when the subject, or the subject less one trailing
newline, is newline-free and contains a wildcard character. -/
def WILDCARDS_PATTERN_match (s : String) : Bool :=
  wildcardsCore s || ((s.toList.getLast? == some '\n') && wildcardsCore (String.mk (s.toList.dropLast)))

/-- The dataclass Data of data.py: one include statement, with the
target expression, the flatten flag and the leftover positional and
named parameters. -/
structure Data where
  urlpath : String
  flatten : Bool := false
  sequence_params : List Val := []
  mapping_params : List (String × Val) := []
deriving Repr

/-- The base_dir attribute of the Constructor: absent, a literal
path-like value, or a zero-argument callable producing one. -/
inductive BaseDir where
  | path (s : String)
  | callable (f : Unit → String)

/-- The fsspec file-system object held in the fs attribute: a glob
method enumerating matching paths and an open method (written fopen
because open is a Lean keyword) producing a file handle or raising.
Both receive the positional and named arguments of the call. -/
structure Fs where
  glob : String → List Val → List (String × Val) → List String
  fopen : String → List Val → List (String × Val) → Except PyErr Nat

/-- The Constructor dataclass of constructor.py with its four
attributes.  The custom loader, when present, maps the path and the
opened file handle to the parsed value. -/
structure Constructor where
  fs : Fs
  base_dir : Option BaseDir := Option.none
  autoload : Bool := true
  custom_loader : Option (String → Nat → Val) := Option.none

/-- The module-level collaborators Constructor.load calls into: the
fsspec.open_files and fsspec.open functions and the yaml.load parse of
an opened file with the current loader type. -/
structure Env where
  open_files : String → List Val → List (String × Val) → List Nat
  fsspec_open : String → List Val → List (String × Val) → Except PyErr Nat
  yaml_load : Nat → Val

/-- One backend invocation performed during Constructor.load, recorded
with the positional and named arguments it received. -/
inductive BackendOp where
  | open_files (urlpath : String) (args : List Val) (kwargs : List (String × Val))
  | fsspec_open (urlpath : String) (args : List Val) (kwargs : List (String × Val))
  | fs_glob (urlpath : String) (args : List Val) (kwargs : List (String × Val))
  | fs_open (path : String) (args : List Val) (kwargs : List (String × Val))
deriving Repr

/-- The function load_open_file of constructor.py: parse an opened
file with the custom loader when one is configured, as plain YAML
otherwise. -/
def load_open_file (env : Env) (c : Constructor) (path : String) (file : Nat) : Val :=
  match c.custom_loader with
  | some f => f path file
  | Option.none => env.yaml_load file

/-- How the glob lambda of the no-scheme wildcard branch will invoke
fs.glob: with no extra options, with keyword arguments, with
positional arguments, or with an explicit maxdepth keyword that may be
None. -/
inductive GlobCall where
  | plain
  | kwargs (kvs : List (String × Val))
  | args (xs : List Val)
  | maxdepth (d : Option Int)
deriving Repr

/-- How the open lambda of the no-scheme wildcard branch will invoke
fs.open on each matched path. -/
inductive OpenCall where
  | plain
  | kwargs (kvs : List (String × Val))
  | args (xs : List Val)
  | mode (m : String)
deriving Repr

/-- Positional and keyword argument lists of the fs.glob invocation a
GlobCall describes. -/
def GlobCall.callArgs : GlobCall → List Val × List (String × Val)
  | .plain => ([], [])
  | .kwargs kvs => ([], kvs)
  | .args xs => (xs, [])
  | .maxdepth d => ([], [("maxdepth", match d with | some n => .int n | Option.none => .none)])

/-- Positional and keyword argument lists of the fs.open invocation an
OpenCall describes. -/
def OpenCall.callArgs : OpenCall → List Val × List (String × Val)
  | .plain => ([], [])
  | .kwargs kvs => ([], kvs)
  | .args xs => (xs, [])
  | .mode m => ([], [("mode", .str m)])

/-- Selection of the raw glob and open option bags in the no-scheme
wildcard branch of Constructor.load: one positional parameter is the
glob bag, two or more give the glob and open bags with the rest
discarded, and only when there are no positional parameters are the
named parameters consulted under the glob and open keys. -/
def pickGlobOpenParams (d : Data) : Option Val × Option Val :=
  match d.sequence_params with
  | [] =>
    if d.mapping_params.isEmpty then (Option.none, Option.none)
    else (mapGet d.mapping_params "glob", mapGet d.mapping_params "open")
  | [g] => (some g, Option.none)
  | g :: o :: _ => (some g, some o)

/-- Shape dispatch of the glob option bag in Constructor.load: absent
or None yields a bare fs.glob call; a mapping is passed as keyword
arguments after coercing a maxdepth entry through int (a coercion
failure propagates); a non-string iterable is passed positionally
after coercing its first element through int (a failure propagates);
any other value is itself coerced through int to become the maxdepth
keyword, with a ValueError caught and replaced by a None maxdepth. -/
def route_glob (gp : Option Val) : Except PyErr GlobCall :=
  match gp with
  | Option.none | some .none => .ok .plain
  | some (.map kvs) =>
    let kv_args := dictOfPairs kvs
    if mapHasKey kv_args "maxdepth" then
      match mapGet kv_args "maxdepth" with
      | some v =>
        match pyInt v with
        | .ok n => .ok (.kwargs (dictInsert kv_args "maxdepth" (.int n)))
        | .error e => .error e
      | Option.none => .ok (.kwargs kv_args)
    else .ok (.kwargs kv_args)
  | some (.list xs) =>
    match xs with
    | [] => .ok (.args [])
    | x :: rest =>
      match pyInt x with
      | .ok n => .ok (.args (.int n :: rest))
      | .error e => .error e
  | some v =>
    match pyInt v with
    | .ok n => .ok (.maxdepth (some n))
    | .error (.valueError _) => .ok (.maxdepth Option.none)
    | .error e => .error e

/-- Shape dispatch of the open option bag in Constructor.load: absent
or None yields a bare fs.open call; a mapping is passed as keyword
arguments; a non-string iterable is passed positionally; a string
becomes the mode keyword; anything else raises the invalid open
parameter ValueError. -/
def route_open (op : Option Val) : Except PyErr OpenCall :=
  match op with
  | Option.none | some .none => .ok .plain
  | some (.map kvs) => .ok (.kwargs (dictOfPairs kvs))
  | some (.list xs) => .ok (.args xs)
  | some (.str s) => .ok (.mode s)
  | some _ => .error (.valueError "invalid open parameter")

/-- Parameter routing of the no-scheme wildcard branch: pick the two
option bags, then dispatch the glob bag (whose eager int coercions run
first, as in the source) and the open bag. -/
def route_params (d : Data) : Except PyErr (GlobCall × OpenCall) :=
  let (gp, op) := pickGlobOpenParams d
  match route_glob gp with
  | .error e => .error e
  | .ok gc =>
    match route_open op with
    | .error e => .error e
    | .ok oc => .ok (gc, oc)

/-- Python iteration over a parsed per-file value, as the flatten list
comprehension performs it: a list yields its elements, a string its
one-character substrings, a dict its keys; other values raise
TypeError. -/
def pyIterChildren : Val → Except PyErr (List Val)
  | .list xs => .ok xs
  | .str s => .ok (s.toList.map (fun c => .str (String.mk [c])))
  | .map kvs => .ok (kvs.map (fun kv => .str kv.1))
  | _ => .error (.typeError "object is not iterable")

/-- The flatten list comprehension of Constructor.load: iterate every
per-file value in order and concatenate the children, stopping at the
first value Python cannot iterate. -/
def flattenVals (vals : List Val) : Except PyErr (List Val) :=
  match vals with
  | [] => .ok []
  | v :: rest =>
    match pyIterChildren v with
    | .error e => .error e
    | .ok cs =>
      match flattenVals rest with
      | .error e => .error e
      | .ok more => .ok (cs ++ more)

/-- The base-directory joining block at the top of Constructor.load:
with no base_dir the target is untouched; a callable base_dir is
invoked first; a target with a URL scheme has the base joined onto its
path component only and the URL reassembled; a scheme-free target is
joined as a plain path and rendered in POSIX form. -/
def resolve_effective_path (base_dir : Option BaseDir) (urlpath : String) : String :=
  let url_sr := urlsplit urlpath
  match base_dir with
  | Option.none => urlpath
  | some bd =>
    let base := PurePosixPath.parse (match bd with | .path s => s | .callable f => f ())
    if url_sr.scheme ≠ "" then
      urlunsplit { url_sr with path := (base.joinpath url_sr.path).as_posix }
    else
      (base.joinpath urlpath).as_posix

/-- Opening and parsing each globbed file in enumeration order in the
no-scheme wildcard branch, recording every fs.open invocation; a
failing open aborts with the backend error. -/
def openEach (env : Env) (c : Constructor) (oc : OpenCall) :
    List String → Except PyErr (List Val) × List BackendOp
  | [] => (.ok [], [])
  | f :: rest =>
    match c.fs.fopen f oc.callArgs.1 oc.callArgs.2 with
    | .error e => (.error e, [.fs_open f oc.callArgs.1 oc.callArgs.2])
    | .ok fid =>
      let v := load_open_file env c f fid
      let res := openEach env c oc rest
      (res.1.map (fun vs => v :: vs), .fs_open f oc.callArgs.1 oc.callArgs.2 :: res.2)

/-- The method Constructor.load of constructor.py.  The scheme is
taken from urlsplit of the original target; the effective path is the
target after base-directory joining; branch selection tests the scheme
and then WILDCARDS_PATTERN against the effective path.  The result is
paired with the trace of backend invocations.  The two defensive
pragma-no-cover guards of the source (fsspec.open returning a list,
fs.glob yielding a non-string) are unrepresentable here because the
backend signatures already rule them out, and parse errors of yaml.load
itself are not modelled. -/
def Constructor.load (env : Env) (c : Constructor) (data : Data) :
    Except PyErr Val × List BackendOp :=
  let url_sr := urlsplit data.urlpath
  let urlpath := resolve_effective_path c.base_dir data.urlpath
  if url_sr.scheme ≠ "" then
    if WILDCARDS_PATTERN_match urlpath then
      let ofs := env.open_files urlpath data.sequence_params data.mapping_params
      (.ok (.list (ofs.map (load_open_file env c urlpath))),
       [.open_files urlpath data.sequence_params data.mapping_params])
    else
      match env.fsspec_open urlpath data.sequence_params data.mapping_params with
      | .ok f =>
        (.ok (load_open_file env c urlpath f),
         [.fsspec_open urlpath data.sequence_params data.mapping_params])
      | .error e =>
        (.error e, [.fsspec_open urlpath data.sequence_params data.mapping_params])
  else if WILDCARDS_PATTERN_match urlpath then
    let urlpath := (PurePosixPath.parse urlpath).as_posix
    match route_params data with
    | .error e => (.error e, [])
    | .ok (gc, oc) =>
      let files := c.fs.glob urlpath gc.callArgs.1 gc.callArgs.2
      let res := openEach env c oc files
      let trace := BackendOp.fs_glob urlpath gc.callArgs.1 gc.callArgs.2 :: res.2
      match res.1 with
      | .error e => (.error e, trace)
      | .ok vals =>
        if data.flatten then
          match flattenVals vals with
          | .ok fl => (.ok (.list fl), trace)
          | .error e => (.error e, trace)
        else (.ok (.list vals), trace)
  else
    match c.fs.fopen urlpath data.sequence_params data.mapping_params with
    | .ok f =>
      (.ok (load_open_file env c urlpath f),
       [.fs_open urlpath data.sequence_params data.mapping_params])
    | .error e =>
      (.error e, [.fs_open urlpath data.sequence_params data.mapping_params])

/-- The context manager Constructor.managed_autoload: save the current
autoload flag, set it to the truthiness of the argument, run the body,
and restore the saved flag on the way out whether the body returned
normally or raised.  The body is modelled as a state transformer that
also reports the state it left behind when it raised, mirroring the
try-finally of the source. -/
def Constructor.managed_autoload {α : Type} (c : Constructor) (autoload : Val)
    (body : Constructor → Except PyErr α × Constructor) : Except PyErr α × Constructor :=
  let saved := c.autoload
  let c1 : Constructor := { c with autoload := pyBool autoload }
  let (r, c2) := body c1
  (r, { c2 with autoload := saved })

/-- Modelled subset of the default YAML load function (yaml.safe_load
on a scalar string), the host-parser collaborator the spec places out
of scope: YAML 1.1 boolean words resolve to bool, null forms to None,
decimal integers to int, anything else stays a string. -/
def DEFAULT_YAML_LOAD_FUNCTION (s : String) : Val :=
  if s ∈ ["yes", "Yes", "YES", "true", "True", "TRUE", "on", "On", "ON"] then .bool true
  else if s ∈ ["no", "No", "NO", "false", "False", "FALSE", "off", "Off", "OFF"] then .bool false
  else if s ∈ ["", "~", "null", "Null", "NULL"] then .none
  else
    match pyIntOfString s with
    | some n => .int n
    | Option.none => .str s

/-- The helper is_kwds of constructor.py, specialised to string-keyed
mappings (the host parser hands the constructor a dict): every key
must be an identifier string. -/
def is_kwds (kvs : List (String × Val)) : Bool :=
  kvs.all (fun kv => isidentifier kv.1)

/-- A YAML node as the tag handler receives it, already passed through
the host parser construction functions of the interface contract
given in the spec: a scalar string, a sequence of values, or a string-keyed
mapping. -/
inductive Node where
  | scalar (s : String)
  | sequence (xs : List Val)
  | mapping (kvs : List (String × Val))
deriving Repr

/-- The Data-building portion of Constructor.__call__: a scalar node
gives a bare target; a sequence node gives the first element as target
and the rest as positional parameters; a mapping node must pass
is_kwds, takes its urlpath entry as target, every other key except
flatten as named parameters, and validates an explicit flatten entry
as a boolean after parsing a string value through the default YAML
load function.  An empty sequence node raises (IndexError in Python),
and a non-string target is rejected here because it would fail
downstream in urlsplit. -/
def construct_data (node : Node) : Except PyErr Data :=
  match node with
  | .scalar s => .ok { urlpath := s }
  | .sequence xs =>
    match xs with
    | [] => .error (.typeError "list index out of range")
    | .str u :: rest => .ok { urlpath := u, sequence_params := rest }
    | _ :: _ => .error (.typeError "urlpath must be a string")
  | .mapping kvs0 =>
    let val := dictOfPairs kvs0
    if is_kwds val then
      match mapGet val "urlpath" with
      | Option.none => .error (.keyError "urlpath")
      | some (.str u) =>
        let mp := val.filter (fun kv => kv.1 ≠ "urlpath" ∧ kv.1 ≠ "flatten")
        match mapGet val "flatten" with
        | Option.none | some .none => .ok { urlpath := u, mapping_params := mp }
        | some fv =>
          let fv := match fv with | .str s => DEFAULT_YAML_LOAD_FUNCTION s | v => v
          match fv with
          | .bool b => .ok { urlpath := u, flatten := b, mapping_params := mp }
          | _ => .error (.valueError "flatten must be a boolean")
      | some _ => .error (.typeError "urlpath must be a string")
    else .error (.valueError "not all keys type of the YAML mapping node are identifier string")

/-- The Representer dataclass of representer.py, holding the tag name
it emits (without the leading sigil). -/
structure Representer where
  tag : String
deriving Repr

/-- The serialisation in Representer.__call__: named parameters emit a
mapping node with the urlpath key injected first, positional
parameters emit a sequence node with the target prepended, and a bare
directive emits a scalar node.  The flatten flag is never emitted. -/
def Representer.call (_r : Representer) (data : Data) : Node :=
  if !data.mapping_params.isEmpty then
    .mapping (data.mapping_params.foldl (fun acc kv => dictInsert acc kv.1 kv.2)
      [("urlpath", .str data.urlpath)])
  else if !data.sequence_params.isEmpty then
    .sequence (.str data.urlpath :: data.sequence_params)
  else .scalar data.urlpath

/-- A value inside an already parsed document tree, as the eager walk
of funcs.py sees it: plain Python leaves, list and dict containers,
and deferred Data directives.  The bytes constructor stands for the
byte-like sequence types the walk refuses to descend into. -/
inductive Obj where
  | none
  | bool (b : Bool)
  | int (n : Int)
  | str (s : String)
  | bytes (bs : List Nat)
  | list (xs : List Obj)
  | map (kvs : List (String × Obj))
  | data (d : Data)

/-- Membership in the abstract Mapping class among the modelled
values. -/
def Obj.isMapping : Obj → Bool
  | .map _ => true
  | _ => false

/-- Membership in the abstract Sequence class among the modelled
values: lists, strings and byte-likes all are sequences in Python. -/
def Obj.isSequence : Obj → Bool
  | .list _ | .str _ | .bytes _ => true
  | _ => false

/-- The text and byte-like sequence types the walk excludes from the
descent (the bytearray, bytes, memoryview, str tuple of funcs.py). -/
def Obj.isTextOrBytes : Obj → Bool
  | .str _ | .bytes _ => true
  | _ => false

/-- Instance test against the Data dataclass. -/
def Obj.isData : Obj → Bool
  | .data _ => true
  | _ => false

/-- Modelled from the spec: the default-value fallback of the 1.x-era
YamlIncludeConstructor, whose implementation is not under src/ (only
tests/test_filenotfound_default.py exercises it).  Per the spec, when
resolution raises the backend not-found error and a default value is
configured, the parsed default is substituted (a textual default is
itself parsed through the same format loader as a literal) and the
error suppressed; in every other case the outcome of resolution is
unchanged. -/
def load_with_default (env : Env) (c : Constructor) (data : Data) (defaultVal : Option Val) :
    Except PyErr Val × List BackendOp :=
  match Constructor.load env c data with
  | (.error (.fileNotFoundError p), tr) =>
    match defaultVal with
    | some v =>
      (.ok (match v with | .str s => DEFAULT_YAML_LOAD_FUNCTION s | w => w), tr)
    | Option.none => (.error (.fileNotFoundError p), tr)
  | r => r

namespace funcs

/-- The eager tree walk load of funcs.py.  A Data value is resolved
through the constructor (and, when nested is set, the resolution is
walked again); a mapping or a non-text sequence is walked child by
child; every other value is returned unchanged.  The inplace flag of
the source only chooses between mutating the caller container and
building a fresh one, which a value-level embedding cannot
distinguish, so it is carried but does not affect the computed value.
The fuel argument models the Python call stack: each recursive call
descends one level, and exhausted fuel is the stack overflow the
source documents for pathological nesting. -/
def load (resolve : Data → Obj) (inplace nested : Bool) : Nat → Obj → Option Obj
  | 0 => fun _ => Option.none
  | fuel + 1 => fun obj =>
    match obj with
    | .data d =>
      let r := resolve d
      if nested then load resolve inplace nested fuel r else some r
    | .map kvs =>
      (kvs.mapM (fun kv => (load resolve inplace nested fuel kv.2).map (fun w => (kv.1, w)))).map Obj.map
    | .list xs =>
      (xs.mapM (load resolve inplace nested fuel)).map Obj.list
    | v => some v

end funcs

/-! Concrete backend instances used by the evaluation witnesses. -/

/-- File identifiers assigned by the concrete test backend. -/
def fidW (p : String) : Nat :=
  if p = "w/1.yml" then 1
  else if p = "w/2.yml" then 2
  else if p = "one.yml" then 3
  else if p = "m.yml" then 4
  else if p = "l.yml" then 5
  else if p = "b.yml" then 6
  else 0

/-- A concrete local filesystem: one wildcard pattern matching two
files, a pattern matching a mapping-valued and a list-valued file, and
one missing path that raises the not-found error. -/
def fsW : Fs where
  glob := fun p _ _ =>
    if p = "w/*.yml" then ["w/1.yml", "w/2.yml"]
    else if p = "m*.yml" then ["m.yml", "l.yml"]
    else if p = "b*.yml" then ["b.yml", "l.yml"]
    else []
  fopen := fun p _ _ =>
    if p = "missing.yml" then .error (.fileNotFoundError "missing.yml")
    else .ok (fidW p)

/-- Parsed contents of the concrete files, by file identifier. -/
def yamlLoadW (fid : Nat) : Val :=
  if fid = 1 then .list [.int 1, .int 2]
  else if fid = 2 then .list [.int 3]
  else if fid = 3 then .map [("name", .str "1")]
  else if fid = 4 then .map [("a", .int 1), ("b", .int 2)]
  else if fid = 5 then .list [.int 3]
  else if fid = 6 then .int 7
  else if fid = 11 then .int 11
  else if fid = 12 then .int 12
  else if fid = 13 then .int 13
  else .none

/-- The concrete module environment: a remote pattern matching two
files, every other remote open succeeding on a fresh handle. -/
def envW : Env where
  open_files := fun u _ _ => if u = "http://h/*.yml" then [11, 12] else []
  fsspec_open := fun _ _ _ => .ok 13
  yaml_load := yamlLoadW

/-- The concrete constructor under test: local filesystem fsW, no base
directory, no custom loader. -/
def ctorW : Constructor where
  fs := fsW

/-- Path resolution as C3 words it, written from the spec: an unset
base leaves the target unchanged; a callable base is invoked with no
arguments to obtain the base; a scheme-carrying target has the base
joined onto the URL path component only, scheme and network location
intact, and the URL is reassembled; a scheme-free target is joined
with the base as plain filesystem paths in forward-slash form. -/
def resolve_path_spec (base_dir : Option BaseDir) (target : String) : String :=
  match base_dir with
  | Option.none => target
  | some bd =>
    let baseStr := match bd with | .path s => s | .callable f => f ()
    let sr := urlsplit target
    if sr.scheme ≠ "" then
      urlunsplit
        ⟨sr.scheme, sr.netloc, ((PurePosixPath.parse baseStr).joinpath sr.path).as_posix,
         sr.query, sr.fragment⟩
    else
      ((PurePosixPath.parse baseStr).joinpath target).as_posix

/-- The glob option interpretation as C2 words it, written from the
claim: absent or None gives a bare call; a mapping becomes keyword
arguments with a maxdepth entry coerced to integer; a non-string
iterable becomes the positional arguments exactly as given; a bare
scalar is coerced to an integer maxdepth.  The source fallback on a
failing scalar coercion is kept because the claim does not address
failure there. -/
def route_glob_spec (gp : Option Val) : Except PyErr GlobCall :=
  match gp with
  | Option.none | some .none => .ok .plain
  | some (.map kvs) =>
    let kv_args := dictOfPairs kvs
    if mapHasKey kv_args "maxdepth" then
      match mapGet kv_args "maxdepth" with
      | some v =>
        match pyInt v with
        | .ok n => .ok (.kwargs (dictInsert kv_args "maxdepth" (.int n)))
        | .error e => .error e
      | Option.none => .ok (.kwargs kv_args)
    else .ok (.kwargs kv_args)
  | some (.list xs) => .ok (.args xs)
  | some v =>
    match pyInt v with
    | .ok n => .ok (.maxdepth (some n))
    | .error (.valueError _) => .ok (.maxdepth Option.none)
    | .error e => .error e

/-- Parameter routing as C2 words it: the claimed bag selection
followed by the claimed shape interpretation of each bag (the open bag
interpretation of the claim coincides with the source). -/
def route_params_spec (d : Data) : Except PyErr (GlobCall × OpenCall) :=
  let (gp, op) := pickGlobOpenParams d
  match route_glob_spec gp with
  | .error e => .error e
  | .ok gc =>
    match route_open op with
    | .error e => .error e
    | .ok oc => .ok (gc, oc)

/-- Elements of a parsed value when it is a Python list; other values
have none. -/
def Val.children : Val → List Val
  | .list xs => xs
  | _ => []

/-- Test that a parsed value is a Python list (a YAML sequence). -/
def Val.isList : Val → Bool
  | .list _ => true
  | _ => false

/-- A concrete positional-form directive: one positional parameter
alongside named parameters, exercising the claimed decision order. -/
def dPosW : Data :=
  { urlpath := "p", sequence_params := [Val.int 2], mapping_params := [("glob", Val.int 9)] }

/-- A concrete named-form directive with a glob mapping holding a
string maxdepth and a mode string under the open key. -/
def dNamedW : Data :=
  { urlpath := "p",
    mapping_params := [("glob", .map [("maxdepth", .str "3")]), ("open", .str "rb")] }

/-! Claim theorems. -/

/-- C9: entering managed_autoload sets the autoload attribute to the
truthiness of the argument for the duration of the body and restores
the saved value on every exit path, whether the body returned normally
or raised, and the toggle itself touches no attribute other than
autoload: the final state is the final state of the body with only
autoload reset, and a body that leaves the state untouched gets the entire
original constructor back. -/
theorem C9_managed_autoload_frame {α : Type} (c : Constructor) (b : Val)
    (body : Constructor → Except PyErr α × Constructor) :
    (Constructor.managed_autoload c b body =
      ((body { c with autoload := pyBool b }).1,
       { (body { c with autoload := pyBool b }).2 with autoload := c.autoload }))
    ∧ (Constructor.managed_autoload c b body).2.autoload = c.autoload
    ∧ (∀ r : Except PyErr α, Constructor.managed_autoload c b (fun c1 => (r, c1)) = (r, c)) :=
  ⟨rfl, rfl, fun _ => rfl⟩

/-- C3: the base-joining block of Constructor.load behaves exactly as
the claim describes on every base-directory configuration and every
target. -/
theorem C3_resolve_path (base_dir : Option BaseDir) (target : String) :
    resolve_effective_path base_dir target = resolve_path_spec base_dir target := by
  cases base_dir with
  | none => rfl
  | some bd => cases bd <;> rfl

/-- C10 counterexample: the path of the string a, newline, star
contains a wildcard character, yet WILDCARDS_PATTERN does not match it
because the dot of the pattern cannot cross the newline, so
Constructor.load routes it to the direct single-file open branch
rather than the glob branch. -/
theorem C10_counterexample :
    ("a\n*".toList.any isWildcardChar = true)
    ∧ (WILDCARDS_PATTERN_match "a\n*" = false)
    ∧ ((Constructor.load envW ctorW { urlpath := "a\n*" }).2
        = [.fs_open "a\n*" [] []]) :=
  ⟨rfl, rfl, rfl⟩

/-- C10 amended: on newline-free paths the wildcard classification of
Constructor.load is exactly the presence of one of the four characters
star, question mark and the two brackets; in particular a lone closing
bracket is classified as a wildcard and routed to the multi-file glob
branch, which returns a list.  A path with an embedded newline is
never classified as a wildcard, while a single trailing newline is
tolerated. -/
theorem C10_amended (s : String) :
    (s.toList.all (fun c => c ≠ '\n') = true →
      WILDCARDS_PATTERN_match s = s.toList.any isWildcardChar)
    ∧ (WILDCARDS_PATTERN_match "a]b" = true)
    ∧ (Constructor.load envW ctorW { urlpath := "a]b" }
        = (.ok (.list []), [.fs_glob "a]b" [] []]))
    ∧ (WILDCARDS_PATTERN_match "a*\n" = true)
    ∧ (WILDCARDS_PATTERN_match "a\nb*" = false) := by
  refine ⟨fun h => ?_, by rfl, by rfl, by rfl, by rfl⟩
  unfold WILDCARDS_PATTERN_match wildcardsCore
  rw [h, Bool.true_and]
  cases ha : s.toList.any isWildcardChar with
  | true => simp
  | false =>
    have hne : s.toList.getLast? ≠ some '\n' := by
      intro hl
      have hm : '\n' ∈ s.toList :=
        List.mem_of_mem_getLast? (by rw [hl]; exact Option.mem_some_iff.mpr rfl)
      have h2 := List.all_eq_true.mp h '\n' hm
      simp at h2
    have hb : (s.toList.getLast? == some '\n') = false := by simpa using hne
    rw [hb, Bool.false_and, Bool.or_false]

/-- C10 amended witness: the implication instantiated at a concrete
newline-free wildcard path. -/
theorem C10_amended_witness :
    ("x*y".toList.all (fun c => c ≠ '\n') = true)
    ∧ (WILDCARDS_PATTERN_match "x*y" = "x*y".toList.any isWildcardChar) :=
  ⟨by decide, (C10_amended "x*y").1 (by decide)⟩

/-- When every matched file opens successfully through the routed open
call, openEach yields the per-file parses in enumeration order and
records one fs.open invocation per file in the same order. -/
theorem openEach_all_ok (env : Env) (c : Constructor) (oc : OpenCall) (fid : String → Nat) :
    ∀ files : List String,
      (∀ p ∈ files, c.fs.fopen p oc.callArgs.1 oc.callArgs.2 = .ok (fid p)) →
      openEach env c oc files =
        (.ok (files.map (fun p => load_open_file env c p (fid p))),
         files.map (fun p => .fs_open p oc.callArgs.1 oc.callArgs.2))
  | [], _ => rfl
  | f :: rest, h => by
    have hf := h f (List.mem_cons_self f rest)
    have hr := openEach_all_ok env c oc fid rest (fun p hp => h p (List.mem_cons_of_mem f hp))
    simp only [openEach, hf, hr, List.map_cons, Except.map]

/-- C1: Constructor.load dispatches on the pair of scheme presence (on
the original target) and wildcard presence (on the effective path).
With both, one fsspec.open_files call receives the effective path and
the directive parameters and the result is the ordered list of
per-file parses; with a scheme only, one fsspec.open call produces the
single parsed value (or propagates the error); with a wildcard only,
the configured filesystem enumerates matches through glob and opens
each match in enumeration order, the result being the list of parses;
with neither, the configured filesystem opens the single path
directly. -/
theorem C1_dispatch (env : Env) (c : Constructor) (d : Data) (e : String)
    (he : e = resolve_effective_path c.base_dir d.urlpath) :
    ((urlsplit d.urlpath).scheme ≠ "" → WILDCARDS_PATTERN_match e = true →
      Constructor.load env c d =
        (.ok (.list ((env.open_files e d.sequence_params d.mapping_params).map
            (load_open_file env c e))),
         [.open_files e d.sequence_params d.mapping_params]))
    ∧ ((urlsplit d.urlpath).scheme ≠ "" → WILDCARDS_PATTERN_match e = false →
      Constructor.load env c d =
        ((env.fsspec_open e d.sequence_params d.mapping_params).map (load_open_file env c e),
         [.fsspec_open e d.sequence_params d.mapping_params]))
    ∧ (∀ (gc : GlobCall) (oc : OpenCall) (fid : String → Nat),
        (urlsplit d.urlpath).scheme = "" → WILDCARDS_PATTERN_match e = true →
        route_params d = .ok (gc, oc) → d.flatten = false →
        (∀ p ∈ c.fs.glob (PurePosixPath.parse e).as_posix gc.callArgs.1 gc.callArgs.2,
          c.fs.fopen p oc.callArgs.1 oc.callArgs.2 = .ok (fid p)) →
        Constructor.load env c d =
          (.ok (.list ((c.fs.glob (PurePosixPath.parse e).as_posix gc.callArgs.1 gc.callArgs.2).map
              (fun p => load_open_file env c p (fid p)))),
           .fs_glob (PurePosixPath.parse e).as_posix gc.callArgs.1 gc.callArgs.2
             :: (c.fs.glob (PurePosixPath.parse e).as_posix gc.callArgs.1 gc.callArgs.2).map
                  (fun p => .fs_open p oc.callArgs.1 oc.callArgs.2)))
    ∧ ((urlsplit d.urlpath).scheme = "" → WILDCARDS_PATTERN_match e = false →
      Constructor.load env c d =
        ((c.fs.fopen e d.sequence_params d.mapping_params).map (load_open_file env c e),
         [.fs_open e d.sequence_params d.mapping_params])) := by
  subst he
  refine ⟨fun hs hw => ?_, fun hs hw => ?_, fun gc oc fid hs hw hr hf ho => ?_, fun hs hw => ?_⟩
  · simp only [Constructor.load, if_pos hs, hw, if_true]
  · simp only [Constructor.load, if_pos hs, hw, Bool.false_eq_true, if_false]
    cases env.fsspec_open (resolve_effective_path c.base_dir d.urlpath) d.sequence_params
      d.mapping_params <;> rfl
  · have hs2 : ¬((urlsplit d.urlpath).scheme ≠ "") := fun hne => hne hs
    simp only [Constructor.load, if_neg hs2, hw, if_true, hr]
    rw [openEach_all_ok env c oc fid _ ho]
    simp only [hf, Bool.false_eq_true, if_false]
  · have hs2 : ¬((urlsplit d.urlpath).scheme ≠ "") := fun hne => hne hs
    simp only [Constructor.load, if_neg hs2, hw, Bool.false_eq_true, if_false]
    cases c.fs.fopen (resolve_effective_path c.base_dir d.urlpath) d.sequence_params
      d.mapping_params <;> rfl

/-- C1 witness: the four dispatch branches instantiated on the
concrete backend, one target per combination of scheme and wildcard
presence. -/
theorem C1_dispatch_witness :
    ((urlsplit "http://h/*.yml").scheme ≠ "" ∧ WILDCARDS_PATTERN_match "http://h/*.yml" = true
      ∧ Constructor.load envW ctorW { urlpath := "http://h/*.yml" }
          = (.ok (.list [.int 11, .int 12]), [.open_files "http://h/*.yml" [] []]))
    ∧ ((urlsplit "http://h/one.yml").scheme ≠ "" ∧ WILDCARDS_PATTERN_match "http://h/one.yml" = false
      ∧ Constructor.load envW ctorW { urlpath := "http://h/one.yml" }
          = (.ok (.int 13), [.fsspec_open "http://h/one.yml" [] []]))
    ∧ ((urlsplit "w/*.yml").scheme = "" ∧ WILDCARDS_PATTERN_match "w/*.yml" = true
      ∧ Constructor.load envW ctorW { urlpath := "w/*.yml" }
          = (.ok (.list [.list [.int 1, .int 2], .list [.int 3]]),
             [.fs_glob "w/*.yml" [] [], .fs_open "w/1.yml" [] [], .fs_open "w/2.yml" [] []]))
    ∧ ((urlsplit "one.yml").scheme = "" ∧ WILDCARDS_PATTERN_match "one.yml" = false
      ∧ Constructor.load envW ctorW { urlpath := "one.yml" }
          = (.ok (.map [("name", .str "1")]), [.fs_open "one.yml" [] []])) := by
  refine ⟨⟨by decide, by rfl, ?_⟩, ⟨by decide, by rfl, ?_⟩, ⟨by rfl, by rfl, ?_⟩,
    ⟨by rfl, by rfl, ?_⟩⟩
  · exact ((C1_dispatch envW ctorW { urlpath := "http://h/*.yml" } _ rfl).1
      (by decide) (by rfl)).trans (by rfl)
  · exact ((C1_dispatch envW ctorW { urlpath := "http://h/one.yml" } _ rfl).2.1
      (by decide) (by rfl)).trans (by rfl)
  · refine ((C1_dispatch envW ctorW { urlpath := "w/*.yml" } _ rfl).2.2.1 .plain .plain fidW
      (by rfl) (by rfl) (by rfl) (by rfl) ?_).trans (by rfl)
    intro p hp
    have hp2 : p ∈ (["w/1.yml", "w/2.yml"] : List String) := hp
    cases hp2 with
    | head => rfl
    | tail _ h2 =>
      cases h2 with
      | head => rfl
      | tail _ h3 => cases h3
  · exact ((C1_dispatch envW ctorW { urlpath := "one.yml" } _ rfl).2.2.2
      (by rfl) (by rfl)).trans (by rfl)

/-- Parameter routing never looks at the flatten flag. -/
theorem route_params_update_flatten (d : Data) (b : Bool) :
    route_params { d with flatten := b } = route_params d := rfl

/-- Python iteration of a list value yields exactly its elements. -/
theorem pyIterChildren_of_isList : ∀ {v : Val}, v.isList = true → pyIterChildren v = .ok v.children
  | .list _, _ => rfl
  | .none, h => by simp [Val.isList] at h
  | .bool _, h => by simp [Val.isList] at h
  | .int _, h => by simp [Val.isList] at h
  | .str _, h => by simp [Val.isList] at h
  | .map _, h => by simp [Val.isList] at h

/-- When every per-file value is a list, the flatten comprehension
succeeds and concatenates the per-file element lists in order. -/
theorem flattenVals_all_list : ∀ {vals : List Val}, (∀ v ∈ vals, v.isList = true) →
    flattenVals vals = .ok (vals.map Val.children).flatten
  | [], _ => rfl
  | v :: rest, h => by
    have hv := pyIterChildren_of_isList (h v (List.mem_cons_self v rest))
    have hr := flattenVals_all_list (fun w hw => h w (List.mem_cons_of_mem v hw))
    simp only [flattenVals, hv, hr, List.map_cons, List.flatten_cons]

/-- C4: in a no-scheme wildcard resolution whose per-file parses are
all sequences, flatten false groups the parses per file in enumeration
order, flatten true concatenates the same element lists in the same
order with exactly one nesting level removed, and the flat length is
the sum of the per-file lengths. -/
theorem C4_flatten_law (env : Env) (c : Constructor) (d : Data)
    (gc : GlobCall) (oc : OpenCall) (fid : String → Nat)
    (e e2 : String) (files : List String) (vals : List Val)
    (he : e = resolve_effective_path c.base_dir d.urlpath)
    (he2 : e2 = (PurePosixPath.parse e).as_posix)
    (hs : (urlsplit d.urlpath).scheme = "")
    (hw : WILDCARDS_PATTERN_match e = true)
    (hr : route_params d = .ok (gc, oc))
    (hfiles : files = c.fs.glob e2 gc.callArgs.1 gc.callArgs.2)
    (ho : ∀ p ∈ files, c.fs.fopen p oc.callArgs.1 oc.callArgs.2 = .ok (fid p))
    (hvals : vals = files.map (fun p => load_open_file env c p (fid p)))
    (hl : ∀ v ∈ vals, v.isList = true) :
    (Constructor.load env c { d with flatten := false } =
      (.ok (.list vals),
       .fs_glob e2 gc.callArgs.1 gc.callArgs.2
         :: files.map (fun p => .fs_open p oc.callArgs.1 oc.callArgs.2)))
    ∧ (Constructor.load env c { d with flatten := true } =
      (.ok (.list (vals.map Val.children).flatten),
       .fs_glob e2 gc.callArgs.1 gc.callArgs.2
         :: files.map (fun p => .fs_open p oc.callArgs.1 oc.callArgs.2)))
    ∧ ((vals.map Val.children).flatten.length = (vals.map (fun v => v.children.length)).sum) := by
  subst he he2 hfiles hvals
  have hs2 : ¬((urlsplit d.urlpath).scheme ≠ "") := fun hne => hne hs
  have hopen := openEach_all_ok env c oc fid _ ho
  refine ⟨?_, ?_, ?_⟩
  · simp only [Constructor.load, route_params_update_flatten, if_neg hs2, hw, if_true, hr, hopen,
      Bool.false_eq_true, if_false]
  · simp only [Constructor.load, route_params_update_flatten, if_neg hs2, hw, if_true, hr, hopen,
      if_true, flattenVals_all_list hl]
  · simp [List.length_flatten, List.map_map, Function.comp_def]

/-- C4 witness: the flatten law on the concrete two-file wildcard
resolution, whose files hold sequences of lengths two and one. -/
theorem C4_flatten_law_witness :
    (∀ v ∈ ([.list [.int 1, .int 2], .list [.int 3]] : List Val), v.isList = true)
    ∧ (Constructor.load envW ctorW { urlpath := "w/*.yml", flatten := false } =
        (.ok (.list [.list [.int 1, .int 2], .list [.int 3]]),
         [.fs_glob "w/*.yml" [] [], .fs_open "w/1.yml" [] [], .fs_open "w/2.yml" [] []]))
    ∧ (Constructor.load envW ctorW { urlpath := "w/*.yml", flatten := true } =
        (.ok (.list [.int 1, .int 2, .int 3]),
         [.fs_glob "w/*.yml" [] [], .fs_open "w/1.yml" [] [], .fs_open "w/2.yml" [] []]))
    ∧ (([.list [.int 1, .int 2], .list [.int 3]] : List Val).map Val.children).flatten.length = 3 := by
  have hmem : ∀ p ∈ (["w/1.yml", "w/2.yml"] : List String),
      ctorW.fs.fopen p OpenCall.plain.callArgs.1 OpenCall.plain.callArgs.2 = .ok (fidW p) := by
    intro p hp
    cases hp with
    | head => rfl
    | tail _ h2 =>
      cases h2 with
      | head => rfl
      | tail _ h3 => cases h3
  have hlist : ∀ v ∈ ([.list [.int 1, .int 2], .list [.int 3]] : List Val), v.isList = true := by
    intro v hv
    cases hv with
    | head => rfl
    | tail _ h2 =>
      cases h2 with
      | head => rfl
      | tail _ h3 => cases h3
  have key := C4_flatten_law envW ctorW { urlpath := "w/*.yml" } .plain .plain fidW
    "w/*.yml" "w/*.yml" ["w/1.yml", "w/2.yml"] [.list [.int 1, .int 2], .list [.int 3]]
    rfl rfl rfl rfl rfl rfl hmem rfl hlist
  exact ⟨hlist, key.1.trans (by rfl), key.2.1.trans (by rfl), key.2.2.trans (by rfl)⟩

/-- C5 counterexample: in a flatten resolution whose first matched
file parses to a mapping rather than a sequence, Constructor.load does
not report any error: the mapping is silently iterated over its keys
and a result list is returned to the caller. -/
theorem C5_counterexample :
    (load_open_file envW ctorW "m.yml" (fidW "m.yml") = .map [("a", .int 1), ("b", .int 2)])
    ∧ ((Val.map [("a", .int 1), ("b", .int 2)]).isList = false)
    ∧ (Constructor.load envW ctorW { urlpath := "m*.yml", flatten := true } =
        (.ok (.list [.str "a", .str "b", .int 3]),
         [.fs_glob "m*.yml" [] [], .fs_open "m.yml" [] [], .fs_open "l.yml" [] []])) :=
  ⟨by rfl, by rfl, by rfl⟩

/-- C5 amended: under flatten, a per-file value Python cannot iterate
at all (None, a boolean or a number) makes the resolution fail with
the iteration TypeError and no result list; but iterable non-sequence
values are not rejected: a mapping contributes its keys and a string
its characters to the flattened result, silently. -/
theorem C5_amended (env : Env) (c : Constructor) (d : Data)
    (gc : GlobCall) (oc : OpenCall) (fid : String → Nat)
    (e e2 : String) (files : List String) (vals : List Val)
    (he : e = resolve_effective_path c.base_dir d.urlpath)
    (he2 : e2 = (PurePosixPath.parse e).as_posix)
    (hs : (urlsplit d.urlpath).scheme = "")
    (hw : WILDCARDS_PATTERN_match e = true)
    (hr : route_params d = .ok (gc, oc))
    (hfiles : files = c.fs.glob e2 gc.callArgs.1 gc.callArgs.2)
    (ho : ∀ p ∈ files, c.fs.fopen p oc.callArgs.1 oc.callArgs.2 = .ok (fid p))
    (hvals : vals = files.map (fun p => load_open_file env c p (fid p))) :
    (∀ err, flattenVals vals = .error err →
      Constructor.load env c { d with flatten := true } =
        (.error err,
         .fs_glob e2 gc.callArgs.1 gc.callArgs.2
           :: files.map (fun p => .fs_open p oc.callArgs.1 oc.callArgs.2)))
    ∧ (∀ fl, flattenVals vals = .ok fl →
      Constructor.load env c { d with flatten := true } =
        (.ok (.list fl),
         .fs_glob e2 gc.callArgs.1 gc.callArgs.2
           :: files.map (fun p => .fs_open p oc.callArgs.1 oc.callArgs.2)))
    ∧ (pyIterChildren .none = .error (.typeError "object is not iterable"))
    ∧ (∀ b, pyIterChildren (.bool b) = .error (.typeError "object is not iterable"))
    ∧ (∀ n, pyIterChildren (.int n) = .error (.typeError "object is not iterable"))
    ∧ (∀ kvs, pyIterChildren (.map kvs) = .ok (kvs.map (fun kv => Val.str kv.1)))
    ∧ (∀ s, pyIterChildren (.str s) =
        .ok (s.toList.map (fun ch => Val.str (String.mk [ch])))) := by
  subst he he2 hfiles hvals
  have hs2 : ¬((urlsplit d.urlpath).scheme ≠ "") := fun hne => hne hs
  have hopen := openEach_all_ok env c oc fid _ ho
  refine ⟨fun err herr => ?_, fun fl hfl => ?_, rfl, fun b => rfl, fun n => rfl,
    fun kvs => rfl, fun s => rfl⟩
  · simp only [Constructor.load, route_params_update_flatten, if_neg hs2, hw, if_true, hr, hopen,
      herr]
  · simp only [Constructor.load, route_params_update_flatten, if_neg hs2, hw, if_true, hr, hopen,
      hfl]

/-- C5 amended witness: the error side on a backend whose first match
parses to a plain number, and the silent side on the mapping-valued
match. -/
theorem C5_amended_witness :
    (flattenVals [.int 7, .list [.int 3]] = .error (.typeError "object is not iterable"))
    ∧ (Constructor.load envW ctorW { urlpath := "b*.yml", flatten := true } =
        (.error (.typeError "object is not iterable"),
         [.fs_glob "b*.yml" [] [], .fs_open "b.yml" [] [], .fs_open "l.yml" [] []]))
    ∧ (flattenVals [.map [("a", .int 1), ("b", .int 2)], .list [.int 3]] =
        .ok [.str "a", .str "b", .int 3])
    ∧ (Constructor.load envW ctorW { urlpath := "m*.yml", flatten := true } =
        (.ok (.list [.str "a", .str "b", .int 3]),
         [.fs_glob "m*.yml" [] [], .fs_open "m.yml" [] [], .fs_open "l.yml" [] []])) := by
  have hmemB : ∀ p ∈ (["b.yml", "l.yml"] : List String),
      ctorW.fs.fopen p OpenCall.plain.callArgs.1 OpenCall.plain.callArgs.2 = .ok (fidW p) := by
    intro p hp
    cases hp with
    | head => rfl
    | tail _ h2 =>
      cases h2 with
      | head => rfl
      | tail _ h3 => cases h3
  have hmemM : ∀ p ∈ (["m.yml", "l.yml"] : List String),
      ctorW.fs.fopen p OpenCall.plain.callArgs.1 OpenCall.plain.callArgs.2 = .ok (fidW p) := by
    intro p hp
    cases hp with
    | head => rfl
    | tail _ h2 =>
      cases h2 with
      | head => rfl
      | tail _ h3 => cases h3
  have keyB := C5_amended envW ctorW { urlpath := "b*.yml" } .plain .plain fidW
    "b*.yml" "b*.yml" ["b.yml", "l.yml"] [.int 7, .list [.int 3]]
    rfl rfl rfl rfl rfl rfl hmemB rfl
  have keyM := C5_amended envW ctorW { urlpath := "m*.yml" } .plain .plain fidW
    "m*.yml" "m*.yml" ["m.yml", "l.yml"] [.map [("a", .int 1), ("b", .int 2)], .list [.int 3]]
    rfl rfl rfl rfl rfl rfl hmemM rfl
  exact ⟨by rfl, (keyB.1 _ (by rfl)).trans (by rfl), by rfl,
    (keyM.2.1 _ (by rfl)).trans (by rfl)⟩

/-- C6: with no scheme and no wildcard, the backend not-found error of
the single open is returned to the caller exactly as the backend
raised it; under the spec-modelled default-value fallback, a
configured default suppresses the error and the parsed default is
returned instead. -/
theorem C6_notfound_default (env : Env) (c : Constructor) (d : Data) (e p : String)
    (he : e = resolve_effective_path c.base_dir d.urlpath)
    (hs : (urlsplit d.urlpath).scheme = "")
    (hw : WILDCARDS_PATTERN_match e = false)
    (hopen : c.fs.fopen e d.sequence_params d.mapping_params = .error (.fileNotFoundError p)) :
    (Constructor.load env c d =
      (.error (.fileNotFoundError p), [.fs_open e d.sequence_params d.mapping_params]))
    ∧ (load_with_default env c d Option.none =
      (.error (.fileNotFoundError p), [.fs_open e d.sequence_params d.mapping_params]))
    ∧ (∀ v, load_with_default env c d (some v) =
      (.ok (match v with | .str s => DEFAULT_YAML_LOAD_FUNCTION s | w => w),
       [.fs_open e d.sequence_params d.mapping_params])) := by
  subst he
  have hs2 : ¬((urlsplit d.urlpath).scheme ≠ "") := fun hne => hne hs
  have hload : Constructor.load env c d =
      (.error (.fileNotFoundError p),
       [.fs_open (resolve_effective_path c.base_dir d.urlpath) d.sequence_params
          d.mapping_params]) := by
    simp only [Constructor.load, if_neg hs2, hw, Bool.false_eq_true, if_false, hopen]
  refine ⟨hload, ?_, fun v => ?_⟩
  · simp only [load_with_default, hload]
  · simp only [load_with_default, hload]

/-- C6 witness: the missing concrete file propagates its not-found
error untouched without a default, and yields the parsed textual
default or the non-textual default verbatim when one is configured. -/
theorem C6_notfound_default_witness :
    (ctorW.fs.fopen "missing.yml" [] [] = .error (.fileNotFoundError "missing.yml"))
    ∧ (Constructor.load envW ctorW { urlpath := "missing.yml" } =
        (.error (.fileNotFoundError "missing.yml"), [.fs_open "missing.yml" [] []]))
    ∧ (load_with_default envW ctorW { urlpath := "missing.yml" } Option.none =
        (.error (.fileNotFoundError "missing.yml"), [.fs_open "missing.yml" [] []]))
    ∧ (load_with_default envW ctorW { urlpath := "missing.yml" } (some (.str "not found")) =
        (.ok (.str "not found"), [.fs_open "missing.yml" [] []]))
    ∧ (load_with_default envW ctorW { urlpath := "missing.yml" } (some (.list [])) =
        (.ok (.list []), [.fs_open "missing.yml" [] []])) := by
  have key := C6_notfound_default envW ctorW { urlpath := "missing.yml" } "missing.yml"
    "missing.yml" rfl rfl (by rfl) (by rfl)
  exact ⟨by rfl, key.1.trans (by rfl), key.2.1.trans (by rfl),
    (key.2.2 (.str "not found")).trans (by rfl), (key.2.2 (.list [])).trans (by rfl)⟩

/-- A succeeding key lookup implies the key-presence test. -/
theorem mapHasKey_of_mapGet {kvs : List (String × Val)} {k : String} {v : Val}
    (h : mapGet kvs k = some v) : mapHasKey kvs k = true := by
  unfold mapGet at h
  cases hf : kvs.find? (fun kv => kv.1 = k) with
  | none => rw [hf] at h; cases h
  | some kv =>
    have hmem := List.mem_of_find?_eq_some hf
    have hp := List.find?_some hf
    unfold mapHasKey
    rw [List.any_eq_true]
    exact ⟨kv, hmem, hp⟩

/-- C2 counterexample: a single positional parameter that is an
iterable is not passed to glob as given, contrary to the claimed
by-shape interpretation: the source coerces its first element through
the int builtin, so the claim-literal routing and the source routing
disagree on the singleton list holding the string 2. -/
theorem C2_counterexample :
    (route_params { urlpath := "p", sequence_params := [Val.list [Val.str "2"]] } =
      .ok (.args [Val.int 2], .plain))
    ∧ (route_params_spec { urlpath := "p", sequence_params := [Val.list [Val.str "2"]] } =
      .ok (.args [Val.str "2"], .plain))
    ∧ (route_params { urlpath := "p", sequence_params := [Val.list [Val.str "2"]] } ≠
      route_params_spec { urlpath := "p", sequence_params := [Val.list [Val.str "2"]] }) := by
  refine ⟨by rfl, by rfl, fun h => ?_⟩
  rw [show route_params { urlpath := "p", sequence_params := [Val.list [Val.str "2"]] } =
        .ok (.args [Val.int 2], .plain) from rfl,
      show route_params_spec { urlpath := "p", sequence_params := [Val.list [Val.str "2"]] } =
        .ok (.args [Val.str "2"], .plain) from rfl] at h
  simp at h

/-- C2 amended: the routing decision order is as claimed (positional
parameters win and make the named ones irrelevant, a lone positional
element is the glob bag, a second element is the open bag with the
rest discarded, and with no positional parameters the glob and open
keys of the named parameters are consulted), and each bag is
interpreted by shape as claimed with two source refinements: the first
element of an iterable-shaped glob bag is also coerced to integer, and
a bare scalar glob bag failing integer coercion yields a None maxdepth
rather than an integer. -/
theorem C2_amended (d : Data) :
    (∀ g rest, d.sequence_params = g :: rest →
      route_params d = route_params { d with mapping_params := [] })
    ∧ (∀ g, d.sequence_params = [g] →
      route_params d = (route_glob (some g)).map (fun gc => (gc, OpenCall.plain)))
    ∧ (∀ g o rest, d.sequence_params = g :: o :: rest →
      route_params d = route_params { d with sequence_params := [g, o] })
    ∧ (d.sequence_params = [] →
      route_params d =
        (match route_glob (mapGet d.mapping_params "glob") with
         | .error e => .error e
         | .ok gc =>
           match route_open (mapGet d.mapping_params "open") with
           | .error e => .error e
           | .ok oc => .ok (gc, oc)))
    ∧ (∀ x rest2, route_glob (some (.list (x :: rest2))) =
        (pyInt x).map (fun n => .args (.int n :: rest2)))
    ∧ (∀ s, route_glob (some (.str s)) = .ok (.maxdepth (pyIntOfString s)))
    ∧ (∀ kvs, mapHasKey (dictOfPairs kvs) "maxdepth" = false →
        route_glob (some (.map kvs)) = .ok (.kwargs (dictOfPairs kvs)))
    ∧ (∀ kvs v n, mapGet (dictOfPairs kvs) "maxdepth" = some v → pyInt v = .ok n →
        route_glob (some (.map kvs)) =
          .ok (.kwargs (dictInsert (dictOfPairs kvs) "maxdepth" (.int n))))
    ∧ (∀ kvs, route_open (some (.map kvs)) = .ok (.kwargs (dictOfPairs kvs)))
    ∧ (∀ xs, route_open (some (.list xs)) = .ok (.args xs))
    ∧ (∀ s, route_open (some (.str s)) = .ok (.mode s)) := by
  refine ⟨fun g rest h => ?_, fun g h => ?_, fun g o rest h => ?_, fun h => ?_,
    fun x rest2 => ?_, fun s => ?_, fun kvs hk => ?_, fun kvs v n h1 h2 => ?_,
    fun kvs => rfl, fun xs => rfl, fun s => rfl⟩
  · cases rest <;> simp [route_params, pickGlobOpenParams, h]
  · cases hg : route_glob (some g) <;> simp [route_params, pickGlobOpenParams, h, hg, route_open,
      Except.map]
  · simp [route_params, pickGlobOpenParams, h]
  · cases hm : d.mapping_params with
    | nil => simp [route_params, pickGlobOpenParams, h, hm, mapGet, route_glob, route_open]
    | cons kv rest => simp [route_params, pickGlobOpenParams, h, hm]
  · cases hx : pyInt x <;> simp [route_glob, hx, Except.map]
  · cases hs : pyIntOfString s <;> simp [route_glob, pyInt, hs]
  · simp [route_glob, hk]
  · have hk := mapHasKey_of_mapGet h1
    simp [route_glob, hk, h1, h2]

/-- C2 amended witness: the decision order and shape interpretations
instantiated on concrete parameter bags, including a named-parameter
form with a string maxdepth inside the glob mapping and a mode string
for open. -/
theorem C2_amended_witness :
    ((dPosW : Data).sequence_params = [Val.int 2])
    ∧ (route_params dPosW = .ok (.maxdepth (some 2), .plain))
    ∧ ((dNamedW : Data).sequence_params = [])
    ∧ (route_params dNamedW = .ok (.kwargs [("maxdepth", .int 3)], .mode "rb"))
    ∧ (route_glob (some (.str "xy")) = .ok (.maxdepth Option.none))
    ∧ (route_glob (some (.list [.str "2", .map []])) =
        .ok (.args [.int 2, .map []])) := by
  refine ⟨rfl, ?_, rfl, ?_, ?_, ?_⟩
  · exact ((C2_amended dPosW).2.1 (Val.int 2) rfl).trans (by rfl)
  · exact ((C2_amended dNamedW).2.2.2.1 rfl).trans (by rfl)
  · exact ((C2_amended dPosW).2.2.2.2.2.1 "xy").trans (by rfl)
  · exact ((C2_amended dPosW).2.2.2.2.1 (.str "2") [.map []]).trans (by rfl)

/-- Congruence for mapM over the Option monad. -/
theorem mapM_option_congr {α β : Type} {f g : α → Option β} :
    ∀ {l : List α}, (∀ a ∈ l, f a = g a) → l.mapM f = l.mapM g
  | [], _ => rfl
  | a :: l, h => by
    rw [List.mapM_cons, List.mapM_cons, h a (List.mem_cons_self a l),
      mapM_option_congr (fun b hb => h b (List.mem_cons_of_mem a hb))]

/-- The value computed by the eager walk does not depend on the
in-place flag, which in the source only chooses between mutating the
caller container and building a fresh one. -/
theorem funcs_load_inplace_eq (resolve : Data → Obj) (nested : Bool) :
    ∀ (fuel : Nat) (v : Obj),
      funcs.load resolve true nested fuel v = funcs.load resolve false nested fuel v
  | 0, _ => rfl
  | fuel + 1, v => by
    cases v with
    | data d =>
      simp only [funcs.load]
      cases nested with
      | true => simpa using funcs_load_inplace_eq resolve true fuel (resolve d)
      | false => rfl
    | map kvs =>
      simp only [funcs.load]
      rw [mapM_option_congr (fun kv _ => by
        rw [funcs_load_inplace_eq resolve nested fuel kv.2])]
    | list xs =>
      simp only [funcs.load]
      rw [mapM_option_congr (fun x _ => funcs_load_inplace_eq resolve nested fuel x)]
    | none => rfl
    | bool b => rfl
    | int n => rfl
    | str s => rfl
    | bytes bs => rfl

/-- C8: the eager walk returns unchanged every value that is neither a
directive, nor a mapping, nor a non-text ordered sequence; strings and
byte-likes are sequences in Python yet are treated as scalar leaves
and never descended into; mappings and sequences are walked value by
value one level deeper; and the computed tree does not depend on the
in-place flag, which only selects container mutation over container
rebuilding. -/
theorem C8_tree_walk (resolve : Data → Obj) (inplace nested : Bool) (fuel : Nat) :
    (∀ v : Obj, v.isData = false → v.isMapping = false →
      (v.isSequence = false ∨ v.isTextOrBytes = true) →
      funcs.load resolve inplace nested (fuel + 1) v = some v)
    ∧ (∀ s, Obj.isSequence (.str s) = true
        ∧ funcs.load resolve inplace nested (fuel + 1) (.str s) = some (.str s))
    ∧ (∀ bs, Obj.isSequence (.bytes bs) = true
        ∧ funcs.load resolve inplace nested (fuel + 1) (.bytes bs) = some (.bytes bs))
    ∧ (∀ kvs, funcs.load resolve inplace nested (fuel + 1) (.map kvs) =
        (kvs.mapM (fun kv =>
          (funcs.load resolve inplace nested fuel kv.2).map (fun w => (kv.1, w)))).map Obj.map)
    ∧ (∀ xs, funcs.load resolve inplace nested (fuel + 1) (.list xs) =
        (xs.mapM (funcs.load resolve inplace nested fuel)).map Obj.list)
    ∧ (∀ v, funcs.load resolve true nested fuel v =
        funcs.load resolve false nested fuel v) := by
  refine ⟨?_, fun s => ⟨rfl, rfl⟩, fun bs => ⟨rfl, rfl⟩, fun kvs => rfl, fun xs => rfl,
    funcs_load_inplace_eq resolve nested fuel⟩
  intro v h1 h2 h3
  cases v with
  | data d => simp [Obj.isData] at h1
  | map kvs => simp [Obj.isMapping] at h2
  | list xs =>
    rcases h3 with h3 | h3
    · simp [Obj.isSequence] at h3
    · simp [Obj.isTextOrBytes] at h3
  | none => rfl
  | bool b => rfl
  | int n => rfl
  | str s => rfl
  | bytes bs => rfl

/-- C8 witness: the leaf clause instantiated on a plain number, which
is neither a directive, nor a mapping, nor a sequence. -/
theorem C8_tree_walk_witness :
    ((Obj.int 5).isData = false) ∧ ((Obj.int 5).isMapping = false)
    ∧ ((Obj.int 5).isSequence = false)
    ∧ (funcs.load (fun _ => Obj.none) false false 1 (.int 5) = some (.int 5)) :=
  ⟨rfl, rfl, rfl,
    (C8_tree_walk (fun _ => Obj.none) false false 0).1 (.int 5) rfl rfl (Or.inl rfl)⟩

/-- A failing key-presence test is exactly non-membership among the
keys. -/
theorem mapHasKey_eq_false_iff : ∀ {kvs : List (String × Val)} {k : String},
    mapHasKey kvs k = false ↔ k ∉ kvs.map Prod.fst
  | [], k => by simp [mapHasKey]
  | kv :: t, k => by
    have ih := @mapHasKey_eq_false_iff t k
    simp only [mapHasKey] at ih
    simp only [mapHasKey, List.any_cons, Bool.or_eq_false_iff, decide_eq_false_iff_not,
      List.map_cons, List.mem_cons, not_or]
    rw [ih]
    exact and_congr (not_congr eq_comm) Iff.rfl

/-- Inserting a fresh key appends the pair at the end. -/
theorem dictInsert_of_not_mem {kvs : List (String × Val)} {k : String} (v : Val)
    (h : mapHasKey kvs k = false) : dictInsert kvs k v = kvs ++ [(k, v)] := by
  simp [dictInsert, h]

/-- The keys after a dict insertion: unchanged for an existing key,
the new key appended otherwise. -/
theorem dictInsert_map_fst (kvs : List (String × Val)) (k : String) (v : Val) :
    (dictInsert kvs k v).map Prod.fst =
      if mapHasKey kvs k then kvs.map Prod.fst else kvs.map Prod.fst ++ [k] := by
  unfold dictInsert
  split
  · rw [List.map_map]
    apply List.map_congr_left
    intro kv _
    by_cases hkv : kv.1 = k <;> simp [hkv, Function.comp]
  · simp

/-- Dict insertion keeps the keys without duplicates. -/
theorem dictInsert_keys_nodup {kvs : List (String × Val)} {k : String} {v : Val}
    (h : (kvs.map Prod.fst).Nodup) : ((dictInsert kvs k v).map Prod.fst).Nodup := by
  rw [dictInsert_map_fst]
  split
  · exact h
  · next hk =>
    have hk2 : k ∉ kvs.map Prod.fst := mapHasKey_eq_false_iff.mp (by simpa using hk)
    simp [List.nodup_append, h, hk2]

/-- The keys of a built dict carry no duplicates. -/
theorem dictOfPairs_keys_nodup (l : List (String × Val)) :
    ((dictOfPairs l).map Prod.fst).Nodup := by
  unfold dictOfPairs
  have key : ∀ (acc : List (String × Val)), (acc.map Prod.fst).Nodup →
      ((l.foldl (fun a kv => dictInsert a kv.1 kv.2) acc).map Prod.fst).Nodup := by
    induction l with
    | nil => intro acc hacc; simpa using hacc
    | cons kv l ih =>
      intro acc hacc
      rw [List.foldl_cons]
      exact ih _ (dictInsert_keys_nodup hacc)
  exact key [] (by simp)

/-- Folding dict insertions of fresh, pairwise distinct keys appends
the pairs in order. -/
theorem foldl_dictInsert_of_disjoint :
    ∀ (l acc : List (String × Val)),
      (l.map Prod.fst).Nodup →
      (∀ k2 ∈ l.map Prod.fst, k2 ∉ acc.map Prod.fst) →
      l.foldl (fun a kv => dictInsert a kv.1 kv.2) acc = acc ++ l
  | [], acc, _, _ => by simp
  | (k, v) :: l, acc, hnd, hdisj => by
    simp only [List.map_cons, List.nodup_cons] at hnd
    have hk : k ∉ acc.map Prod.fst := hdisj k (by simp)
    have h1 : dictInsert acc k v = acc ++ [(k, v)] :=
      dictInsert_of_not_mem v (mapHasKey_eq_false_iff.mpr hk)
    have hdisj2 : ∀ k2 ∈ l.map Prod.fst, k2 ∉ (acc ++ [(k, v)]).map Prod.fst := by
      intro k2 hk2
      simp only [List.map_append, List.map_cons, List.map_nil, List.mem_append,
        List.mem_singleton]
      rintro (hmem | rfl)
      · exact hdisj k2 (by simp [hk2]) hmem
      · exact hnd.1 hk2
    rw [List.foldl_cons, h1, foldl_dictInsert_of_disjoint l (acc ++ [(k, v)]) hnd.2 hdisj2]
    simp

/-- Building a dict from pairs with pairwise distinct keys changes
nothing. -/
theorem dictOfPairs_eq_self {l : List (String × Val)} (h : (l.map Prod.fst).Nodup) :
    dictOfPairs l = l := by
  unfold dictOfPairs
  simpa using foldl_dictInsert_of_disjoint l [] h (by simp)

/-- Looking up the key at the head of the list. -/
theorem mapGet_cons_self (k : String) (v : Val) (t : List (String × Val)) :
    mapGet ((k, v) :: t) k = some v := by
  simp [mapGet, List.find?_cons]

/-- Looking up an absent key yields nothing. -/
theorem mapGet_eq_none_of_not_mem {kvs : List (String × Val)} {key : String}
    (h : key ∉ kvs.map Prod.fst) : mapGet kvs key = Option.none := by
  unfold mapGet
  cases hf : kvs.find? (fun kv => kv.1 = key) with
  | none => rfl
  | some kv =>
    have hm := List.mem_of_find?_eq_some hf
    have hp := List.find?_some hf
    simp only [decide_eq_true_eq] at hp
    exact absurd (List.mem_map.mpr ⟨kv, hm, hp⟩) h

/-- What a successful mapping-form construction guarantees: the dict
of the node passed the identifier-key check, its urlpath entry is the
string target, no positional parameters arise, and the named
parameters are exactly the dict entries other than urlpath and
flatten. -/
theorem construct_data_mapping_ok {kvs0 : List (String × Val)} {d : Data}
    (h : construct_data (.mapping kvs0) = .ok d) :
    is_kwds (dictOfPairs kvs0) = true
    ∧ mapGet (dictOfPairs kvs0) "urlpath" = some (.str d.urlpath)
    ∧ d.sequence_params = []
    ∧ d.mapping_params =
        (dictOfPairs kvs0).filter (fun kv => kv.1 ≠ "urlpath" ∧ kv.1 ≠ "flatten") := by
  simp only [construct_data] at h
  split at h
  case isFalse => exact absurd h (by simp)
  case isTrue hkw =>
    split at h
    · exact absurd h (by simp)
    · next u hu =>
      split at h
      · simp only [Except.ok.injEq] at h
        subst h
        exact ⟨hkw, hu, rfl, rfl⟩
      · simp only [Except.ok.injEq] at h
        subst h
        exact ⟨hkw, hu, rfl, rfl⟩
      · next fv hfv =>
        split at h
        · next b hb =>
          simp only [Except.ok.injEq] at h
          subst h
          exact ⟨hkw, hu, rfl, rfl⟩
        · exact absurd h (by simp)
    · exact absurd h (by simp)

/-- C7 counterexample: a directive built from the mapping form with an
explicit true flatten flag serialises to a bare scalar node, because
the representer never emits the flatten flag, so re-parsing the
emitted node yields a directive whose flatten flag is false and the
round trip is not the identity. -/
theorem C7_counterexample :
    (construct_data (.mapping [("urlpath", Val.str "a.yml"), ("flatten", Val.bool true)])
      = .ok { urlpath := "a.yml", flatten := true })
    ∧ (Representer.call ⟨"inc"⟩ { urlpath := "a.yml", flatten := true } = .scalar "a.yml")
    ∧ ((construct_data (Representer.call ⟨"inc"⟩ { urlpath := "a.yml", flatten := true })).map
        Data.flatten = .ok false) :=
  ⟨by rfl, by rfl, by rfl⟩

/-- C7 amended: for every directive built from a scalar, sequence or
mapping form of the tag whose flatten flag is false, serialising with
the representer and re-parsing the emitted node with the constructor
reproduces the directive exactly: same target, same positional and
named parameters, same (false) flatten flag.  A true flatten flag is
not preserved, since the representer never emits it. -/
theorem C7_roundtrip_amended (r : Representer) (node : Node) (d : Data)
    (h : construct_data node = .ok d) (hf : d.flatten = false) :
    construct_data (Representer.call r d) = .ok d := by
  cases node with
  | scalar s =>
    simp only [construct_data, Except.ok.injEq] at h
    subst h
    rfl
  | sequence xs =>
    cases xs with
    | nil => exact absurd h (by simp [construct_data])
    | cons x rest =>
      cases x with
      | str u =>
        simp only [construct_data, Except.ok.injEq] at h
        subst h
        cases rest with
        | nil => rfl
        | cons y t => rfl
      | none => exact absurd h (by simp [construct_data])
      | bool b => exact absurd h (by simp [construct_data])
      | int n => exact absurd h (by simp [construct_data])
      | list l => exact absurd h (by simp [construct_data])
      | map m => exact absurd h (by simp [construct_data])
  | mapping kvs0 =>
    obtain ⟨hkw, hget, hseq, hmp⟩ := construct_data_mapping_ok h
    obtain ⟨u, fl, sp, mp⟩ := d
    dsimp only at hget hseq hmp hf
    subst hf hseq hmp
    have hnodup : ((dictOfPairs kvs0).map Prod.fst).Nodup := dictOfPairs_keys_nodup kvs0
    have hfnodup : (((dictOfPairs kvs0).filter
        (fun kv => kv.1 ≠ "urlpath" ∧ kv.1 ≠ "flatten")).map Prod.fst).Nodup :=
      List.Nodup.sublist ((List.filter_sublist _).map Prod.fst) hnodup
    have hmemkeys : ∀ kv ∈ (dictOfPairs kvs0).filter
        (fun kv => kv.1 ≠ "urlpath" ∧ kv.1 ≠ "flatten"),
        kv.1 ≠ "urlpath" ∧ kv.1 ≠ "flatten" := by
      intro kv hkv
      have h2 := (List.mem_filter.mp hkv).2
      simpa using h2
    have hkwf : ∀ kv ∈ (dictOfPairs kvs0).filter
        (fun kv => kv.1 ≠ "urlpath" ∧ kv.1 ≠ "flatten"),
        isidentifier kv.1 = true := by
      intro kv hkv
      exact List.all_eq_true.mp hkw kv (List.mem_filter.mp hkv).1
    cases hmpc : (dictOfPairs kvs0).filter (fun kv => kv.1 ≠ "urlpath" ∧ kv.1 ≠ "flatten") with
    | nil => rfl
    | cons kv0 tl =>
      rw [hmpc] at hmemkeys hkwf hfnodup
      have hrep : Representer.call r ⟨u, false, [], kv0 :: tl⟩ =
          .mapping ((kv0 :: tl).foldl (fun a kv => dictInsert a kv.1 kv.2)
            [("urlpath", Val.str u)]) := rfl
      have hdisj : ∀ k2 ∈ (kv0 :: tl).map Prod.fst,
          k2 ∉ ([("urlpath", Val.str u)].map Prod.fst) := by
        intro k2 hk2
        simp only [List.map_cons, List.map_nil, List.mem_singleton]
        rintro rfl
        obtain ⟨kv, hkv, hfst⟩ := List.mem_map.mp hk2
        exact (hmemkeys kv hkv).1 hfst
      have hfoldl := foldl_dictInsert_of_disjoint (kv0 :: tl) [("urlpath", Val.str u)]
        hfnodup hdisj
      rw [hrep, hfoldl, List.singleton_append]
      have hnodup2 : ((("urlpath", Val.str u) :: kv0 :: tl).map Prod.fst).Nodup := by
        rw [List.map_cons, List.nodup_cons]
        refine ⟨fun hmem => ?_, hfnodup⟩
        obtain ⟨kv, hkv, hfst⟩ := List.mem_map.mp hmem
        exact (hmemkeys kv hkv).1 hfst
      have hdict : dictOfPairs (("urlpath", Val.str u) :: kv0 :: tl) =
          ("urlpath", Val.str u) :: kv0 :: tl := dictOfPairs_eq_self hnodup2
      have hkw2 : is_kwds (("urlpath", Val.str u) :: kv0 :: tl) = true := by
        rw [show is_kwds (("urlpath", Val.str u) :: kv0 :: tl) =
          (("urlpath", Val.str u) :: kv0 :: tl).all (fun kv => isidentifier kv.1) from rfl]
        rw [List.all_eq_true]
        intro kv hkv
        rcases List.mem_cons.mp hkv with heq | hkv2
        · subst heq; rfl
        · exact hkwf kv hkv2
      have hgetu : mapGet (("urlpath", Val.str u) :: kv0 :: tl) "urlpath" = some (Val.str u) :=
        mapGet_cons_self _ _ _
      have hgetf : mapGet (("urlpath", Val.str u) :: kv0 :: tl) "flatten" = Option.none := by
        apply mapGet_eq_none_of_not_mem
        intro hmem
        obtain ⟨kv, hkv, hfst⟩ := List.mem_map.mp hmem
        rcases List.mem_cons.mp hkv with heq | hkv2
        · subst heq; exact absurd hfst (by simp)
        · exact (hmemkeys kv hkv2).2 hfst
      have hfil : (("urlpath", Val.str u) :: kv0 :: tl).filter
          (fun kv => kv.1 ≠ "urlpath" ∧ kv.1 ≠ "flatten") = kv0 :: tl := by
        rw [List.filter_cons_of_neg (by simp)]
        apply List.filter_eq_self.mpr
        intro kv hkv
        have h2 := hmemkeys kv hkv
        simpa using h2
      simp only [construct_data, hdict, hkw2, eq_self_iff_true, if_true, hgetu, hgetf, hfil]

/-- C7 amended witness: the amended round trip instantiated on a
mapping-form directive with one extra named parameter and on a
sequence-form directive with one positional parameter. -/
theorem C7_roundtrip_amended_witness :
    (construct_data (.mapping [("urlpath", Val.str "a.yml"), ("compression", Val.str "gzip")])
      = .ok { urlpath := "a.yml", mapping_params := [("compression", Val.str "gzip")] })
    ∧ (construct_data (Representer.call ⟨"inc"⟩
        { urlpath := "a.yml", mapping_params := [("compression", Val.str "gzip")] })
      = .ok { urlpath := "a.yml", mapping_params := [("compression", Val.str "gzip")] })
    ∧ (construct_data (.sequence [Val.str "b.yml", Val.int 2])
      = .ok { urlpath := "b.yml", sequence_params := [Val.int 2] })
    ∧ (construct_data (Representer.call ⟨"inc"⟩
        { urlpath := "b.yml", sequence_params := [Val.int 2] })
      = .ok { urlpath := "b.yml", sequence_params := [Val.int 2] }) :=
  ⟨by rfl,
   C7_roundtrip_amended ⟨"inc"⟩ (.mapping [("urlpath", Val.str "a.yml"),
     ("compression", Val.str "gzip")]) _ (by rfl) rfl,
   by rfl,
   C7_roundtrip_amended ⟨"inc"⟩ (.sequence [Val.str "b.yml", Val.int 2]) _ (by rfl) rfl⟩

end YamlInc
